import Mathlib

/-!
Verification of the `wrtcconn` peer adapter (pkg/wrtcconn/wrtcconn.go)
against its natural-language specification.

The Go source is shallowly embedded: pure fragments become Lean
functions, the stateful peer registry becomes explicit state passing
over an association list, side effects (closing resources, sending
frames, setting session descriptions) become elements of an explicit
`Action` trace in the program order of the source, and Go runtime
faults (index out of range, close of a closed channel) become explicit
error values. Go strings are modelled as `List Char` (their rune
sequences) so that the embedded string functions compute by structural
recursion.
-/

deriving instance DecidableEq for Except

namespace Wrtcconn

/-- Go `strings.Split s sep` for a single-character separator:
splits around every occurrence of `sep`, always returning at least one
(possibly empty) part. -/
def splitOnChar (sep : Char) : List Char → List (List Char)
  | [] => [[]]
  | c :: rest =>
    let r := splitOnChar sep rest
    if c = sep then [] :: r
    else
      match r with
      | h :: t => (c :: h) :: t
      | [] => [[c]]

/-- Whether `p` is an initial segment of `s` (helper for substring
containment, Go `strings.Contains`). -/
def startsWithSeq : List Char → List Char → Bool
  | [], _ => true
  | _ :: _, [] => false
  | a :: p, b :: s => a = b && startsWithSeq p s

/-- Go `strings.Contains hay needle`: some suffix of `hay` starts with
`needle`. -/
def containsSeq (needle : List Char) : List Char → Bool
  | [] => startsWithSeq needle []
  | c :: rest => startsWithSeq needle (c :: rest) || containsSeq needle rest

/-- Go `strings.TrimSpace`: drop leading and trailing whitespace runes.
(Go tests `unicode.IsSpace`; the claims only exercise ASCII whitespace,
where `Char.isWhitespace` agrees.) -/
def trimSpace (s : List Char) : List Char :=
  ((s.dropWhile Char.isWhitespace).reverse.dropWhile Char.isWhitespace).reverse

/-- Result of parsing the ICE server list in `Adapter.Open`.
`indexOutOfRangePanic` models the Go runtime panic raised by an
out-of-range slice index. -/
inductive OpenErr where
  | invalidTURNServerAddr
  | missingTURNCredentials
  | indexOutOfRangePanic
  deriving DecidableEq

/-- Embedding of `webrtc.ICEServer` as populated by `Adapter.Open`:
the STUN branch fills only `URLs`; the TURN branch fills `URLs`,
`Username`, `Credential` and sets `CredentialType` to password. -/
structure ICEServer where
  urls : List (List Char)
  username : List Char
  credential : List Char
  credentialTypePassword : Bool
  deriving DecidableEq

/-- Embedding of the ICE-server parsing loop at the top of
`Adapter.Open` (wrtcconn.go lines 108-138), entry by entry:

  * whitespace-only entries are skipped;
  * an entry containing `"stun:"` becomes a URL-only server;
  * otherwise the entry is split on `"@"`; fewer than two parts is
    `ErrInvalidTURNServerAddr`;
  * the source then re-tests `len(addrParts) < 2` — not
    `len(authParts) < 2` — so that guard is dead code (the branch is
    unreachable once the first split produced two parts), and the
    subsequent `authParts[1]` index panics when the auth part has no
    `":"`. That runtime panic is modelled as `.indexOutOfRangePanic`. -/
def parseIceServers : List (List Char) → Except OpenErr (List ICEServer)
  | [] => .ok []
  | ice :: rest =>
    if trimSpace ice = [] then
      parseIceServers rest
    else if containsSeq "stun:".data ice then
      (parseIceServers rest).map (fun tl => ⟨[ice], [], [], false⟩ :: tl)
    else
      match splitOnChar '@' ice with
      | a0 :: a1 :: _ =>
        -- the source's second guard re-checks len(addrParts) < 2,
        -- which is false on this branch, so it never fires
        match splitOnChar ':' a0 with
        | u :: c :: _ =>
          (parseIceServers rest).map (fun tl => ⟨[a1], u, c, true⟩ :: tl)
        | _ => .error .indexOutOfRangePanic
      | _ => .error .invalidTURNServerAddr

/-- Embedding of the unexported `peer` struct: the registry value held
per remote peer id. Resources (the peer connection, the candidates
channel, each data channel) are modelled by numeric handles so that a
teardown trace can name exactly which resource each close touches.
`channels` is the label-keyed map of data channels; `iid` the session
instance token minted at entry creation. -/
structure PeerEntry where
  conn : Nat
  candidates : Nat
  channels : List (String × Nat)
  iid : String
  deriving DecidableEq

/-- The `Adapter.peers` map, as an association list with unique keys
(every update goes through `insertPeer` / `erasePeer`, which preserve
key uniqueness, matching Go map semantics). -/
abbrev Registry := List (String × PeerEntry)

/-- Go map read `a.peers[pid]` with its `ok` flag. -/
def lookupPeer : Registry → String → Option PeerEntry
  | [], _ => none
  | (k, v) :: rest, pid => if k = pid then some v else lookupPeer rest pid

/-- Go map delete `delete(a.peers, pid)`. -/
def erasePeer : Registry → String → Registry
  | [], _ => []
  | kv :: rest, pid =>
    if kv.1 = pid then erasePeer rest pid else kv :: erasePeer rest pid

/-- Go map assignment `a.peers[pid] = e` (overwrites any prior
binding). -/
def insertPeer (reg : Registry) (pid : String) (e : PeerEntry) : Registry :=
  (pid, e) :: erasePeer reg pid

/-- One observable side effect of the session loop, in the program
order of the source. Closes name the resource handle they touch. -/
inductive Action where
  | closeChannel (chanId : Nat)
  | closeConn (connId : Nat)
  | closeCandQueue (queueId : Nat)
  | createDataChannel (label : String)
  | createOffer
  | createAnswer
  | setLocalDescription
  | setRemoteDescription
  | installEntry (peerId : String)
  | startDrain (queueId : Nat)
  | sendOffer (dest : String)
  | sendAnswer (dest : String)
  | sendCandidate (dest : String)
  | enqueueCandidate (queueId : Nat) (payload : String)
  | addICECandidate (payload : String)
  deriving DecidableEq

/-- The closes the source performs to retire one peer entry where it
does so completely (introduction-side supersession, introduction-side
disconnect, session-exit defer): every channel in `channels`, then the
connection, then `close(candidates)`. -/
def retireEntryActions (e : PeerEntry) : List Action :=
  e.channels.map (fun ch => .closeChannel ch.2)
    ++ [.closeConn e.conn, .closeCandQueue e.candidates]

/-- Embedding of the introduction handler's critical section
(wrtcconn.go lines 475-496) plus the surrounding program order
(lines 298-501): create the primary data channel labelled
`config.PrimaryChannelID`, create and set the local offer, then under
the registry lock close any superseded entry's channels, connection and
candidates queue before assigning the new entry, and finally post the
offer envelope. The fresh entry `pr` built at line 417 holds the new
connection, a new candidates queue, the one primary channel, and the
freshly minted `iid`. -/
def introEntry (connId candId chanId : Nat) (label iid : String) : PeerEntry :=
  ⟨connId, candId, [(label, chanId)], iid⟩

/-- See `introEntry`. -/
def introHandler (reg : Registry) (fromId : String)
    (connId candId chanId : Nat) (label iid : String) :
    List Action × Registry :=
  ([.createDataChannel label, .createOffer, .setLocalDescription]
    ++ (match lookupPeer reg fromId with
        | some old => retireEntryActions old
        | none => [])
    ++ [.installEntry fromId, .sendOffer fromId],
   insertPeer reg fromId (introEntry connId candId chanId label iid))

/-- Embedding of the offer handler's success path (wrtcconn.go lines
506-693) for an offer addressed to us from `fromId`: set the remote
description, create and set the local answer, install the new entry by
plain map assignment — the source performs no teardown of a prior
entry here — then start the candidate-drain task and post the answer
envelope. `pr` is the freshly built entry (empty channels map). -/
def offerHandler (reg : Registry) (fromId : String) (pr : PeerEntry) :
    List Action × Registry :=
  ([.setRemoteDescription, .createAnswer, .setLocalDescription,
    .installEntry fromId, .startDrain pr.candidates, .sendAnswer fromId],
   insertPeer reg fromId pr)

/-- Embedding of the introduction-side `OnConnectionStateChange`
handler for the `Disconnected` state (wrtcconn.go lines 307-348),
where `iid` is the token captured when the entry was created: look the
peer up; missing entry or a different stored `iid` is a no-op;
otherwise close every channel, close the connection, close the
candidates queue and delete the entry. -/
def introDisconnect (reg : Registry) (pid iid : String) :
    List Action × Registry :=
  match lookupPeer reg pid with
  | none => ([], reg)
  | some c =>
    if c.iid ≠ iid then ([], reg)
    else (retireEntryActions c, erasePeer reg pid)

/-- Embedding of the offer-side `OnConnectionStateChange` handler for
the `Disconnected` state (wrtcconn.go lines 536-574): the same lookup
and `iid` guard, but the teardown body closes `c.conn` twice and never
touches `c.channels` before closing the candidates queue and deleting
the entry. -/
def offerDisconnect (reg : Registry) (pid iid : String) :
    List Action × Registry :=
  match lookupPeer reg pid with
  | none => ([], reg)
  | some c =>
    if c.iid ≠ iid then ([], reg)
    else ([.closeConn c.conn, .closeConn c.conn, .closeCandQueue c.candidates],
          erasePeer reg pid)

/-- Embedding of the candidate handler (wrtcconn.go lines 694-738) for
a candidate addressed to us from `fromId`: look the sender up; missing
entry is a no-op; otherwise enqueue the payload on the entry's
candidates queue (the engine's add-candidate is never called here). -/
def candidateHandler (reg : Registry) (fromId payload : String) : List Action :=
  match lookupPeer reg fromId with
  | none => []
  | some c => [.enqueueCandidate c.candidates payload]

/-- Embedding of the answer handler's per-peer trace (wrtcconn.go lines
739-801) together with its drain task: look the sender up; missing
entry is a no-op; otherwise set the remote description and start the
drain task, which then adds each blob dequeued from the candidates
queue to the ICE engine. -/
def answerHandlerTrace (reg : Registry) (fromId : String)
    (blobs : List String) : List Action :=
  match lookupPeer reg fromId with
  | none => []
  | some c =>
    [.setRemoteDescription, .startDrain c.candidates]
      ++ blobs.map (fun b => .addICECandidate b)

/-- The offer handler's trace followed by its drain task's adds, for
queued blobs `blobs` (the drain goroutine of wrtcconn.go lines
674-686 runs after the handler body that spawns it). -/
def offerHandlerTrace (reg : Registry) (fromId : String) (pr : PeerEntry)
    (blobs : List String) : List Action :=
  (offerHandler reg fromId pr).1 ++ blobs.map (fun b => .addICECandidate b)

/-- Embedding of the session-exit `defer` (wrtcconn.go lines 183-197):
for every registry entry, close each of its channels, its connection,
and its candidates queue. -/
def sessionExitTeardown (reg : Registry) : List Action :=
  (reg.map (fun kv => retireEntryActions kv.2)).flatten

/-- The prefix of a handler trace that runs before the new entry for
`fid` is assigned into the registry. -/
def beforeInstall (fid : String) (acts : List Action) : List Action :=
  acts.takeWhile (fun a => a ≠ .installEntry fid)

/-- A trace fragment closes every resource of `old`: each channel in
its channels map, its connection, and its candidates queue. -/
def entryRetired (old : PeerEntry) (acts : List Action) : Prop :=
  (∀ ch ∈ old.channels, Action.closeChannel ch.2 ∈ acts)
    ∧ Action.closeConn old.conn ∈ acts
    ∧ Action.closeCandQueue old.candidates ∈ acts

instance (old : PeerEntry) (acts : List Action) :
    Decidable (entryRetired old acts) := by
  unfold entryRetired; exact inferInstance

/-- The trace fully retires `old` strictly before installing the new
entry for `fid`. -/
def retiredBeforeInstall (old : PeerEntry) (fid : String)
    (acts : List Action) : Prop :=
  entryRetired old (beforeInstall fid acts)

instance (old : PeerEntry) (fid : String) (acts : List Action) :
    Decidable (retiredBeforeInstall old fid acts) := by
  unfold retiredBeforeInstall; exact inferInstance

/-- Whether no ICE candidate is handed to the engine before the first
`setRemoteDescription` of the trace. -/
def noAddBeforeSetRemote : List Action → Bool
  | [] => true
  | .addICECandidate _ :: _ => false
  | .setRemoteDescription :: _ => true
  | _ :: rest => noAddBeforeSetRemote rest

/-- Whether no candidate-drain task is started before the first
`setRemoteDescription` of the trace. -/
def noDrainBeforeSetRemote : List Action → Bool
  | [] => true
  | .startDrain _ :: _ => false
  | .setRemoteDescription :: _ => true
  | _ :: rest => noDrainBeforeSetRemote rest

/-- A Go runtime fault surfaced by the embedding. -/
inductive GoFault where
  | closeOfClosedChannel
  deriving DecidableEq

/-- The part of the `Adapter` state that `Close` touches: the `done`
flag, the root-context cancellation, and whether the `lines` channel
has been closed. -/
structure AdapterLifecycle where
  done : Bool
  cancelled : Bool
  linesClosed : Bool
  deriving DecidableEq

/-- Go `close(ch)`: closing an already-closed channel panics. -/
def goChanClose (alreadyClosed : Bool) : Except GoFault Unit :=
  if alreadyClosed then .error .closeOfClosedChannel else .ok ()

/-- Embedding of `Adapter.Close` (wrtcconn.go lines 851-859): set
`done`, cancel the root context, then `close(a.lines)` — which is a Go
runtime panic if `lines` is already closed. -/
def adapterClose (s : AdapterLifecycle) : Except GoFault AdapterLifecycle :=
  let s1 : AdapterLifecycle := { s with done := true, cancelled := true }
  match goChanClose s1.linesClosed with
  | .error e => .error e
  | .ok _ => .ok { s1 with linesClosed := true }

/-- Go receive `line := <-a.lines` as it appears in the session loop's
select: with the buffer empty and the channel closed, the receive
completes immediately with the zero value (`nil`, modelled as `[]`);
with the channel open and empty it would block (`none`). -/
def recvFromLines (closed : Bool) (pending : List (List Nat)) :
    Option (List Nat × List (List Nat)) :=
  match pending with
  | f :: rest => some (f, rest)
  | [] => if closed then some (([] : List Nat), ([] : List (List Nat))) else none

/-- Embedding of the session loop's outbound-frame select case
(wrtcconn.go lines 813-829): when the receive from `a.lines`
completes, the received value is encrypted with the community key
(`enc`) and written to the signaling socket; the new socket-output
trace is returned. `none` means the case is not ready. -/
def linesSelectStep (enc : List Nat → List Nat) (closed : Bool)
    (pending : List (List Nat)) (sent : List (List Nat)) :
    Option (List (List Nat) × List (List Nat)) :=
  match recvFromLines closed pending with
  | none => none
  | some (line, rest) => some (rest, sent ++ [enc line])

/-- Embedding of the Go `message` struct carried on the
`dataChannelReadWriteCloser.msgs` channel: a payload and an error. -/
structure DMessage where
  data : List Nat
  err : Option Nat
  deriving DecidableEq

/-- The error value `io.EOF`, as a fixed numeric code. -/
def ioEOF : Nat := 0

/-- What `newDataChannelReadWriteCloser`'s `OnMessage` handler
(wrtcconn.go line 881) enqueues for an arriving datagram. -/
def onMessageEnqueue (data : List Nat) : DMessage := ⟨data, none⟩

/-- What `newDataChannelReadWriteCloser`'s `OnClose` handler
(wrtcconn.go line 885) enqueues when the channel closes. -/
def onCloseEnqueue : DMessage := ⟨[], some ioEOF⟩

/-- Go `copy(dst, src)`: copies `min` bytes into the front of `dst`,
leaving the rest of `dst` unchanged, and returns the count copied. -/
def goCopy (dst src : List Nat) : Nat × List Nat :=
  let n := min dst.length src.length
  (n, src.take n ++ dst.drop n)

/-- Embedding of `dataChannelReadWriteCloser.Read` (wrtcconn.go lines
891-899) applied to the next message received from `d.msgs` (the
receive blocks until one is available): an error message yields
`(-1, err)` with the buffer untouched; a datagram is copied into the
buffer with `copy` and the copied count returned. The result is
(returned count, returned error, buffer contents after the call). -/
def dcRead (buf : List Nat) (msg : DMessage) : Int × Option Nat × List Nat :=
  match msg.err with
  | some e => (-1, some e, buf)
  | none =>
    let r := goCopy buf msg.data
    (Int.ofNat r.1, none, r.2)

/-- Embedding of `dataChannelReadWriteCloser.Write` (wrtcconn.go lines
900-906), with the outcome of the underlying `d.dc.Send(p)` passed in:
a send error yields `(-1, err)`; success yields `(len p, nil)`. -/
def dcWrite (p : List Nat) (sendResult : Option Nat) : Int × Option Nat :=
  match sendResult with
  | some e => (-1, some e)
  | none => (Int.ofNat p.length, none)

/-- Embedding of `AdapterConfig`, with `Timeout` in nanoseconds
(Go `time.Duration` units). -/
structure AdapterConfig where
  timeout : Nat
  verbose : Bool
  id : String
  primaryChannelID : List Char
  deriving DecidableEq

/-- Go `time.Second` in `time.Duration` units. -/
def timeSecond : Nat := 1000000000

/-- Embedding of the config normalization in `NewAdapter` (wrtcconn.go
lines 62-96): a `nil` config is replaced by
`{Timeout: 10s, Verbose: false, ID: "", PrimaryChannelID: ""}`, and a
whitespace-only `PrimaryChannelID` is then replaced by the literal
`"primary"`. The result is stored in the adapter and read by every
later `CreateDataChannel` call. -/
def newAdapterConfig (config : Option AdapterConfig) : AdapterConfig :=
  let c := match config with
    | none =>
      { timeout := 10 * timeSecond, verbose := false, id := "",
        primaryChannelID := [] }
    | some c => c
  if trimSpace c.primaryChannelID = [] then
    { c with primaryChannelID := "primary".data }
  else c

/-- Helper: `takeWhile` passes an initial segment whose elements all
satisfy the predicate. -/
theorem takeWhile_append_all {α} (p : α → Bool) (l1 l2 : List α)
    (h : ∀ a ∈ l1, p a = true) :
    (l1 ++ l2).takeWhile p = l1 ++ l2.takeWhile p := by
  induction l1 with
  | nil => simp
  | cons a l ih =>
    have ha := h a (by simp)
    have ih2 := ih (fun b hb => h b (by simp [hb]))
    simp [List.takeWhile_cons, ha, ih2]

/-- Helper: deleting a key makes its lookup miss. -/
theorem lookupPeer_erasePeer_self (reg : Registry) (pid : String) :
    lookupPeer (erasePeer reg pid) pid = none := by
  induction reg with
  | nil => rfl
  | cons kv rest ih =>
    by_cases h : kv.1 = pid
    · simpa [erasePeer, h] using ih
    · have : kv.1 ≠ pid := h
      simpa [erasePeer, lookupPeer, h] using ih

/-- Helper: deleting one key leaves every other key's lookup
unchanged. -/
theorem lookupPeer_erasePeer_ne (reg : Registry) (pid q : String)
    (h : q ≠ pid) :
    lookupPeer (erasePeer reg pid) q = lookupPeer reg q := by
  induction reg with
  | nil => rfl
  | cons kv rest ih =>
    by_cases hk : kv.1 = pid
    · have hkq : kv.1 ≠ q := by rw [hk]; exact fun hq => h hq.symm
      simp [erasePeer, lookupPeer, hk, hkq, ih, Ne.symm h]
    · by_cases hq : kv.1 = q
      · simp [erasePeer, lookupPeer, hk, hq, h]
      · simp [erasePeer, lookupPeer, hk, hq, ih]

/-- Helper: a map assignment makes its key's lookup hit the new
value. -/
theorem lookupPeer_insertPeer_self (reg : Registry) (pid : String)
    (e : PeerEntry) : lookupPeer (insertPeer reg pid e) pid = some e := by
  simp [insertPeer, lookupPeer]

end Wrtcconn

open Wrtcconn

/-- C1: counterexample — an offer envelope addressed to us from a peer
id that already has a registry entry installs the new entry (which
becomes visible to lookups) without retiring the prior entry: none of
the prior entry's channels, its connection, or its candidates queue is
closed before (or after) the install in the offer handler's trace. -/
theorem C1_counterexample_offer_install_skips_retirement :
    lookupPeer [("B", ⟨0, 1, [("primary", 2)], "I1"⟩)] "B" =
      some ⟨0, 1, [("primary", 2)], "I1"⟩
    ∧ ¬ retiredBeforeInstall ⟨0, 1, [("primary", 2)], "I1"⟩ "B"
        (offerHandler [("B", ⟨0, 1, [("primary", 2)], "I1"⟩)] "B"
          ⟨3, 4, [], "I2"⟩).1
    ∧ Action.closeConn 0 ∉
        (offerHandler [("B", ⟨0, 1, [("primary", 2)], "I1"⟩)] "B"
          ⟨3, 4, [], "I2"⟩).1
    ∧ lookupPeer
        (offerHandler [("B", ⟨0, 1, [("primary", 2)], "I1"⟩)] "B"
          ⟨3, 4, [], "I2"⟩).2 "B" = some ⟨3, 4, [], "I2"⟩ := by
  refine ⟨by decide, by decide, by decide, by decide⟩

/-- C1 (amended): on an introduction envelope, a prior entry for the
same remote peer id is fully retired — every channel in its channels
map, its connection, and its candidates queue closed — before the new
entry is installed and becomes visible to lookups; on an offer
envelope, the new entry is installed and becomes visible without the
prior entry being retired. -/
theorem C1_amended_intro_retires_offer_does_not (reg : Registry)
    (fid : String) (old : PeerEntry) (connId candId chanId : Nat)
    (label iid : String) (pr : PeerEntry)
    (h : lookupPeer reg fid = some old) :
    retiredBeforeInstall old fid
      (introHandler reg fid connId candId chanId label iid).1
    ∧ lookupPeer (introHandler reg fid connId candId chanId label iid).2 fid =
        some (introEntry connId candId chanId label iid)
    ∧ ¬ retiredBeforeInstall old fid (offerHandler reg fid pr).1
    ∧ lookupPeer (offerHandler reg fid pr).2 fid = some pr := by
  refine ⟨?_, ?_, ?_, ?_⟩
  · have hform : (introHandler reg fid connId candId chanId label iid).1 =
        ([.createDataChannel label, .createOffer, .setLocalDescription]
          ++ retireEntryActions old) ++ [.installEntry fid, .sendOffer fid] := by
      simp [introHandler, h]
    have hall : ∀ a ∈ ([Action.createDataChannel label, .createOffer,
        .setLocalDescription] ++ retireEntryActions old),
        (fun a => decide (a ≠ Action.installEntry fid)) a = true := by
      intro a ha
      simp only [List.mem_append, List.mem_cons, List.not_mem_nil, or_false,
        retireEntryActions, List.mem_map] at ha
      rcases ha with (rfl | rfl | rfl) | (⟨ch, _, rfl⟩ | rfl | rfl) <;> simp
    rw [retiredBeforeInstall, beforeInstall, hform,
      takeWhile_append_all _ _ _ hall]
    refine ⟨fun ch hch => ?_, ?_, ?_⟩
    · simp only [List.mem_append, retireEntryActions, List.mem_map,
        List.mem_cons]
      exact Or.inl (Or.inr (Or.inl ⟨ch, hch, rfl⟩))
    · simp [retireEntryActions]
    · simp [retireEntryActions]
  · simp [introHandler, lookupPeer_insertPeer_self]
  · intro hret
    have hconn := hret.2.1
    simp [offerHandler, beforeInstall, List.takeWhile_cons] at hconn
  · simp [offerHandler, lookupPeer_insertPeer_self]

/-- C1 witness: the amended theorem applied at a one-entry registry. -/
theorem C1_amended_witness :
    retiredBeforeInstall ⟨0, 1, [("primary", 2)], "I1"⟩ "B"
      (introHandler [("B", ⟨0, 1, [("primary", 2)], "I1"⟩)] "B"
        3 4 5 "primary" "I2").1
    ∧ lookupPeer (introHandler [("B", ⟨0, 1, [("primary", 2)], "I1"⟩)] "B"
        3 4 5 "primary" "I2").2 "B" = some (introEntry 3 4 5 "primary" "I2")
    ∧ ¬ retiredBeforeInstall ⟨0, 1, [("primary", 2)], "I1"⟩ "B"
        (offerHandler [("B", ⟨0, 1, [("primary", 2)], "I1"⟩)] "B"
          ⟨6, 7, [], "I3"⟩).1
    ∧ lookupPeer (offerHandler [("B", ⟨0, 1, [("primary", 2)], "I1"⟩)] "B"
        ⟨6, 7, [], "I3"⟩).2 "B" = some ⟨6, 7, [], "I3"⟩ :=
  C1_amended_intro_retires_offer_does_not
    [("B", ⟨0, 1, [("primary", 2)], "I1"⟩)] "B" ⟨0, 1, [("primary", 2)], "I1"⟩
    3 4 5 "primary" "I2" ⟨6, 7, [], "I3"⟩ (by decide)

/-- C2: a `Disconnected` connection-state event, on both the
introduction side and the offer side, removes the registry entry for
its peer id exactly when the stored entry's `iid` equals the event's
captured `iid`; on an `iid` mismatch, or when no entry exists, the
registry is left unchanged, and other peer ids are never affected. -/
theorem C2_disconnect_removes_only_matching_iid (reg : Registry)
    (pid iid : String) :
    (∀ c : PeerEntry, lookupPeer reg pid = some c → c.iid = iid →
        lookupPeer (introDisconnect reg pid iid).2 pid = none
        ∧ lookupPeer (offerDisconnect reg pid iid).2 pid = none)
    ∧ (∀ c : PeerEntry, lookupPeer reg pid = some c → c.iid ≠ iid →
        (introDisconnect reg pid iid).2 = reg
        ∧ (offerDisconnect reg pid iid).2 = reg)
    ∧ (lookupPeer reg pid = none →
        (introDisconnect reg pid iid).2 = reg
        ∧ (offerDisconnect reg pid iid).2 = reg)
    ∧ (∀ q : String, q ≠ pid →
        lookupPeer (introDisconnect reg pid iid).2 q = lookupPeer reg q
        ∧ lookupPeer (offerDisconnect reg pid iid).2 q = lookupPeer reg q) := by
  refine ⟨?_, ?_, ?_, ?_⟩
  · intro c hc hiid
    simp [introDisconnect, offerDisconnect, hc, hiid, lookupPeer_erasePeer_self]
  · intro c hc hiid
    simp [introDisconnect, offerDisconnect, hc, hiid]
  · intro hc
    simp [introDisconnect, offerDisconnect, hc]
  · intro q hq
    cases hc : lookupPeer reg pid with
    | none => simp [introDisconnect, offerDisconnect, hc]
    | some c =>
      by_cases hiid : c.iid = iid
      · simp [introDisconnect, offerDisconnect, hc, hiid,
          lookupPeer_erasePeer_ne _ _ _ hq]
      · simp [introDisconnect, offerDisconnect, hc, hiid]

/-- C2 witness: the guard theorem applied at a one-entry registry, for
a matching `iid`, a stale `iid`, a missing peer id, and an unrelated
peer id. -/
theorem C2_disconnect_witness :
    lookupPeer (introDisconnect [("B", ⟨0, 1, [], "I1"⟩)] "B" "I1").2 "B" = none
    ∧ (introDisconnect [("B", ⟨0, 1, [], "I1"⟩)] "B" "I2").2 =
        [("B", ⟨0, 1, [], "I1"⟩)]
    ∧ (offerDisconnect [("B", ⟨0, 1, [], "I1"⟩)] "A" "I1").2 =
        [("B", ⟨0, 1, [], "I1"⟩)]
    ∧ lookupPeer (offerDisconnect [("B", ⟨0, 1, [], "I1"⟩)] "B" "I1").2 "Q" =
        lookupPeer [("B", ⟨0, 1, [], "I1"⟩)] "Q" :=
  ⟨((C2_disconnect_removes_only_matching_iid
      [("B", ⟨0, 1, [], "I1"⟩)] "B" "I1").1 ⟨0, 1, [], "I1"⟩ (by decide) rfl).1,
   ((C2_disconnect_removes_only_matching_iid
      [("B", ⟨0, 1, [], "I1"⟩)] "B" "I2").2.1 ⟨0, 1, [], "I1"⟩ (by decide)
      (by decide)).1,
   ((C2_disconnect_removes_only_matching_iid
      [("B", ⟨0, 1, [], "I1"⟩)] "A" "I1").2.2.1 (by decide)).2,
   (((C2_disconnect_removes_only_matching_iid
      [("B", ⟨0, 1, [], "I1"⟩)] "B" "I1").2.2.2) "Q" (by decide)).2⟩

/-- C6: a candidate envelope for a known peer only enqueues the blob on
that entry's candidates queue (never calling the engine's
add-candidate directly, and doing nothing for an unknown peer), and on
both the offer-receiving and the answer-receiving paths no drain task
starts and no queued candidate reaches the ICE engine before
`SetRemoteDescription`. -/
theorem C6_candidates_applied_after_remote_description (reg : Registry)
    (fid pay : String) (pr : PeerEntry) (blobs : List String) :
    (∀ c : PeerEntry, lookupPeer reg fid = some c →
        candidateHandler reg fid pay = [.enqueueCandidate c.candidates pay])
    ∧ (lookupPeer reg fid = none → candidateHandler reg fid pay = [])
    ∧ noAddBeforeSetRemote (offerHandlerTrace reg fid pr blobs) = true
    ∧ noDrainBeforeSetRemote (offerHandler reg fid pr).1 = true
    ∧ noAddBeforeSetRemote (answerHandlerTrace reg fid blobs) = true
    ∧ noDrainBeforeSetRemote (answerHandlerTrace reg fid blobs) = true := by
  refine ⟨?_, ?_, ?_, ?_, ?_, ?_⟩
  · intro c hc
    simp [candidateHandler, hc]
  · intro hc
    simp [candidateHandler, hc]
  · rfl
  · rfl
  · cases hc : lookupPeer reg fid <;>
      simp [answerHandlerTrace, hc, noAddBeforeSetRemote]
  · cases hc : lookupPeer reg fid <;>
      simp [answerHandlerTrace, hc, noDrainBeforeSetRemote]

/-- C6 witness: the queue-discipline theorem applied at a one-entry
registry and at the empty registry. -/
theorem C6_candidates_witness :
    candidateHandler [("B", ⟨0, 1, [], "I1"⟩)] "B" "cand" =
      [.enqueueCandidate 1 "cand"]
    ∧ candidateHandler [] "B" "cand" = []
    ∧ noAddBeforeSetRemote
        (offerHandlerTrace [] "B" ⟨2, 3, [], "I2"⟩ ["x"]) = true :=
  ⟨(C6_candidates_applied_after_remote_description
      [("B", ⟨0, 1, [], "I1"⟩)] "B" "cand" ⟨2, 3, [], "I2"⟩ ["x"]).1
      ⟨0, 1, [], "I1"⟩ (by decide),
   (C6_candidates_applied_after_remote_description
      [] "B" "cand" ⟨2, 3, [], "I2"⟩ ["x"]).2.1 (by decide),
   (C6_candidates_applied_after_remote_description
      [] "B" "cand" ⟨2, 3, [], "I2"⟩ ["x"]).2.2.1⟩

/-- C9: a `nil` config at construction yields a 10-second timeout and
(after the whitespace check) the primary channel label `"primary"`; a
supplied config with an empty or whitespace-only `PrimaryChannelID`
also gets the label `"primary"` while keeping its own timeout. These
values are fixed in the adapter's stored config, which every later
`CreateDataChannel` reads. -/
theorem C9_config_defaults :
    (newAdapterConfig none).timeout = 10 * timeSecond
    ∧ (newAdapterConfig none).primaryChannelID = "primary".data
    ∧ ∀ c : AdapterConfig, trimSpace c.primaryChannelID = [] →
        (newAdapterConfig (some c)).primaryChannelID = "primary".data
        ∧ (newAdapterConfig (some c)).timeout = c.timeout := by
  refine ⟨by decide, by decide, ?_⟩
  intro c hc
  simp [newAdapterConfig, hc]

/-- C9 witness: the defaults theorem applied to a config whose primary
channel id is whitespace-only. -/
theorem C9_config_witness :
    (newAdapterConfig (some ⟨5, false, "", "  ".data⟩)).primaryChannelID =
      "primary".data
    ∧ (newAdapterConfig (some ⟨5, false, "", "  ".data⟩)).timeout = 5 :=
  C9_config_defaults.2.2 ⟨5, false, "", "  ".data⟩ (by decide)

/-- C4: for a non-whitespace ICE entry without `"stun:"`, a missing `@`
separator fails with `ErrInvalidTURNServerAddr`, but an auth part
without `":"` does NOT fail with `ErrMissingTURNCredentials` as the
claim states: the source re-checks `len(addrParts) < 2` instead of
`len(authParts) < 2`, so `authParts[1]` raises an index-out-of-range
runtime panic. Evaluated at the failing input
`["user@turn:example.org"]`. -/
theorem C4_turn_without_credentials_panics :
    parseIceServers ["user@turn:example.org".data] =
      .error .indexOutOfRangePanic
    ∧ parseIceServers ["user@turn:example.org".data] ≠
      .error .missingTURNCredentials
    ∧ parseIceServers ["turnonly.example.org".data] =
      .error .invalidTURNServerAddr
    ∧ parseIceServers ["user:pass@turn:example.org:3478".data] =
      .ok [⟨["turn:example.org:3478".data], "user".data, "pass".data, true⟩] := by
  refine ⟨by decide, by decide, by decide, by decide⟩

/-- C3: at an offer-side peer entry holding one open data channel, a
matching `Disconnected` event's teardown closes the connection twice
and never closes the channel in the `channels` map, contradicting the
claim that every teardown closes every channel; the entry is still
removed from the registry. -/
theorem C3_offer_disconnect_teardown_skips_channels :
    (offerDisconnect [("B", ⟨5, 6, [("primary", 7)], "I1"⟩)] "B" "I1").1 =
      [.closeConn 5, .closeConn 5, .closeCandQueue 6]
    ∧ Action.closeChannel 7 ∉
      (offerDisconnect [("B", ⟨5, 6, [("primary", 7)], "I1"⟩)] "B" "I1").1
    ∧ lookupPeer
      (offerDisconnect [("B", ⟨5, 6, [("primary", 7)], "I1"⟩)] "B" "I1").2 "B" =
      none
    ∧ (introDisconnect [("B", ⟨5, 6, [("primary", 7)], "I1"⟩)] "B" "I1").1 =
      [.closeChannel 7, .closeConn 5, .closeCandQueue 6] := by
  refine ⟨by decide, by decide, by decide, by decide⟩

/-- C5: `Close` sets the `done` flag and closes the `lines` channel,
but with `lines` closed the session loop's outbound select case is
permanently ready: the receive yields the channel's zero value, which
the loop encrypts and writes to the socket, so a further outbound frame
is sent after `Close` has returned — contradicting the claim. -/
theorem C5_outbound_frames_continue_after_close :
    adapterClose ⟨false, false, false⟩ = .ok ⟨true, true, true⟩
    ∧ ∀ (enc : List Nat → List Nat) (sent : List (List Nat)),
      linesSelectStep enc true [] sent = some ([], sent ++ [enc []])
      ∧ (sent ++ [enc []]).length = sent.length + 1 := by
  refine ⟨by decide, fun enc sent => ⟨rfl, by simp⟩⟩

/-- C7: `Close` is not idempotent: the first call returns successfully,
but a second call reaches `close(a.lines)` with the channel already
closed, which is a Go runtime panic, not a successful return. -/
theorem C7_counterexample_second_close_panics :
    adapterClose ⟨false, false, false⟩ = .ok ⟨true, true, true⟩
    ∧ adapterClose ⟨true, true, true⟩ = .error .closeOfClosedChannel := by
  refine ⟨by decide, by decide⟩

/-- C7 (amended): the first call to `Close` (on any state whose `lines`
channel is still open) succeeds, and any later call — the lifecycle
state then has `linesClosed` — faults with close-of-closed-channel
instead of returning the same result. -/
theorem C7_amended_close_once_then_faults (d c : Bool) (s : AdapterLifecycle) :
    adapterClose ⟨d, c, false⟩ = .ok ⟨true, true, true⟩
    ∧ adapterClose { s with linesClosed := true } =
      .error .closeOfClosedChannel := by
  refine ⟨rfl, rfl⟩

/-- C8: `Read` applied to an arriving datagram returns the copied count
`min (len buf) (len datagram)`, leaves the buffer length unchanged,
fills its prefix with the datagram's first `min` bytes (overflow bytes
beyond the buffer are discarded), and reports no error; applied to the
message enqueued when the channel closes it returns end-of-stream
(`io.EOF`). -/
theorem C8_read_copies_min_and_eof_on_close (buf data : List Nat) :
    (dcRead buf (onMessageEnqueue data)).1 =
      Int.ofNat (min buf.length data.length)
    ∧ (dcRead buf (onMessageEnqueue data)).2.1 = none
    ∧ (dcRead buf (onMessageEnqueue data)).2.2.length = buf.length
    ∧ (dcRead buf (onMessageEnqueue data)).2.2.take (min buf.length data.length)
      = data.take (min buf.length data.length)
    ∧ dcRead buf onCloseEnqueue = (-1, some ioEOF, buf) := by
  refine ⟨rfl, rfl, ?_, ?_, rfl⟩
  · show (data.take (min buf.length data.length)
        ++ buf.drop (min buf.length data.length)).length = buf.length
    rw [List.length_append, List.length_take, List.length_drop]
    omega
  · show (data.take (min buf.length data.length)
        ++ buf.drop (min buf.length data.length)).take
        (min buf.length data.length) = data.take (min buf.length data.length)
    exact List.take_left' (by simp only [List.length_take]; omega)

/-- C10: every failure path of the byte-stream adapter returns -1 as
the byte count: `Read` returns `(-1, err)` for any error message
(including `(-1, io.EOF)` at end-of-stream), and `Write` returns
`(-1, err)` when the underlying send fails (and `(len p, nil)` when it
succeeds). -/
theorem C10_failure_paths_return_minus_one (buf p d : List Nat) (e : Nat) :
    dcRead buf ⟨d, some e⟩ = (-1, some e, buf)
    ∧ dcRead buf onCloseEnqueue = (-1, some ioEOF, buf)
    ∧ dcWrite p (some e) = (-1, some e)
    ∧ dcWrite p none = (Int.ofNat p.length, none)
    ∧ (-1 : Int) ≠ 0 := by
  refine ⟨rfl, rfl, rfl, rfl, by decide⟩
